import Mathlib

/-!
Verification development for the Phantom Subtitle Translator backend.

The definitions below are a shallow embedding of the TypeScript sources:
`translation.worker.ts` (subtitle parser, AI gateway, context memory store,
translation orchestrator), `jobs.ts` (queue + worker), and `types.ts`
(the data model).  JavaScript numbers that can be `NaN` are modelled as
`Option Int` (with `none` for `NaN`); external services (the generative
model, the vector index, the SRT library, the Redis queue) are modelled at
their interface boundary, as oracle arguments or as explicit state.
-/

namespace PhantomSubtitle

/-! ### JavaScript string / number semantics helpers -/

/-- ASCII whitespace recognised by the JS runtime in the places we model
(`parseInt` prefix skipping and `String.prototype.trim`). -/
def isJsSpace (c : Char) : Bool :=
  c == ' ' || c == '\t' || c == '\n' || c == '\r'

/-- JS `String.prototype.trim`: drop whitespace from both ends. -/
def jsTrim (s : String) : String :=
  String.mk (((s.toList.dropWhile isJsSpace).reverse.dropWhile isJsSpace).reverse)

/-- Splitting a character list at newline characters; JS `split('\n')`
always yields at least one (possibly empty) segment. -/
def splitNLChars : List Char → List (List Char)
  | [] => [[]]
  | c :: rest =>
    if c = '\n' then [] :: splitNLChars rest
    else
      match splitNLChars rest with
      | [] => [[c]]
      | seg :: segs => (c :: seg) :: segs

/-- JS `s.split('\n')`. -/
def jsSplitNL (s : String) : List String :=
  (splitNLChars s.toList).map String.mk

/-- JS `array.join('\n')`. -/
def joinNL : List String → String
  | [] => ""
  | [s] => s
  | s :: rest => s ++ "\n" ++ joinNL rest

/-- The effect of `text.replace(/<[^>]*>/g, '')`: every maximal segment
starting at a `<` and ending at the next `>` is removed; a `<` with no
later `>` is kept (the regex needs a closing `>` to match).  The fuel
argument (the input length suffices, every step consumes at least one
character) keeps the recursion structural. -/
def stripTagsAux : Nat → List Char → List Char
  | 0, l => l
  | _ + 1, [] => []
  | fuel + 1, c :: rest =>
    if c = '<' then
      if rest.contains '>' then stripTagsAux fuel ((rest.dropWhile (fun d => !(d = '>'))).tail)
      else c :: rest
    else c :: stripTagsAux fuel rest

def stripTags (s : String) : String := String.mk (stripTagsAux s.toList.length s.toList)

/-- The character for a decimal digit value. -/
def digitChar (d : Nat) : Char := Char.ofNat (48 + d)

/-- Big-endian decimal digits of `n` (fuel-bounded; `fuel ≥ n` suffices). -/
def natReprDigits : Nat → Nat → List Nat
  | 0, _ => []
  | fuel + 1, n => if n = 0 then [] else natReprDigits fuel (n / 10) ++ [n % 10]

/-- Decimal representation of a natural number, as produced by JS
`Number.prototype.toString` for integral values. -/
def natRepr (n : Nat) : String :=
  if n = 0 then "0" else String.mk ((natReprDigits n n).map digitChar)

/-- JS `Number.prototype.toString` for integral values. -/
def intToString : Int → String
  | Int.ofNat n => natRepr n
  | Int.negSucc m => "-" ++ natRepr (m + 1)

/-- JS stringification of a number that may be `NaN` (`none`). -/
def jsNumToString : Option Int → String
  | none => "NaN"
  | some i => intToString i

/-- Accumulate the numeric value of a run of decimal digit characters. -/
def digitsToNat (cs : List Char) : Nat :=
  cs.foldl (fun acc c => 10 * acc + (c.toNat - 48)) 0

/-- JS `parseInt(s, 10)`: skip leading whitespace, an optional sign, then
read a maximal run of decimal digits; `NaN` (here `none`) if the run is
empty. -/
def jsParseInt (s : String) : Option Int :=
  let cs := s.toList.dropWhile isJsSpace
  let signRest : Bool × List Char :=
    match cs with
    | c :: t => if c = '-' then (true, t) else if c = '+' then (false, t) else (false, cs)
    | [] => (false, [])
  let ds := signRest.2.takeWhile Char.isDigit
  if ds = [] then none
  else some (if signRest.1 then -(digitsToNat ds : Int) else (digitsToNat ds : Int))

/-- JS values as far as the code under verification distinguishes them:
property access on an object that lacks the property yields `undef`. -/
inductive JsValue where
  | str (s : String)
  | num (n : Int)
  | nanV
  | undefV
deriving DecidableEq

/-- Template-literal stringification (`${v}`) of a `JsValue`. -/
def jsValueToString : JsValue → String
  | .str s => s
  | .num n => intToString n
  | .nanV => "NaN"
  | .undefV => "undefined"

/-- Property lookup on a JS object represented as a field list; a missing
property reads as `undefined`. -/
def jsGet (fields : List (String × JsValue)) (name : String) : JsValue :=
  match fields.find? (fun p => p.1 == name) with
  | some p => p.2
  | none => .undefV

/-! ### Data model (`types.ts`) -/

/-- `SrtLine` from `types.ts`; `sequence` is `Option Int` because
`parseInt` can produce `NaN`. -/
structure SrtLine where
  sequence : Option Int
  startTime : String
  endTime : String
  duration : Int
  text : String
deriving DecidableEq

/-- `TranslatedSrtLine extends SrtLine` with the translated text. -/
structure TranslatedSrtLine extends SrtLine where
  translatedText : String
deriving DecidableEq

/-- `UserGlossaryItem` from `types.ts`. -/
structure UserGlossaryItem where
  term : String
  translation : String
deriving DecidableEq

/-- `Keyword` from `types.ts`. -/
structure Keyword where
  term : String
  definition : String
deriving DecidableEq

/-- `GroundedKeyword extends Keyword` from `types.ts`. -/
structure GroundedKeyword extends Keyword where
  translations : List String
deriving DecidableEq

/-- `GlossaryTerm` from `types.ts` (`translationType` kept as a string). -/
structure GlossaryTerm where
  term : String
  definition : String
  proposedTranslation : String
  translationType : String
  justification : String
  alternatives : List String
deriving DecidableEq

/-- `CharacterProfile` from `types.ts`. -/
structure CharacterProfile where
  personaName : String
  speakingStyle : String
  voiceConsistencyRule : String
deriving DecidableEq

/-- `TranslationBlueprint` from `types.ts`. -/
structure TranslationBlueprint where
  summary : String
  keyPoints : List String
  characterProfiles : List CharacterProfile
  culturalNuances : List String
  glossary : List GlossaryTerm
deriving DecidableEq

/-- One entry of the triage agent's `classifications` array:
`{ id: number, model: 'flash' | 'pro' }` (the parsed JSON may carry any
string in `model`). -/
structure TriageClassification where
  id : Int
  model : String
deriving DecidableEq

/-! ### Subtitle parser (`parseSrt` / `toSrtString`) -/

/-- One record as returned by the external `srt-parser-2` `fromSrt`:
string id and timestamps plus numeric second values (which are `NaN`,
i.e. `none`, when the library could not derive them). -/
structure RawSrtLine where
  id : String
  startTime : String
  endTime : String
  startTimeSeconds : Option Int
  endTimeSeconds : Option Int
  text : String
deriving DecidableEq

/-- JS subtraction where either operand may be `NaN`. -/
def jsSub (a b : Option Int) : Option Int :=
  match a, b with
  | some x, some y => some (x - y)
  | _, _ => none

/-- The per-record mapping inside `parseSrt`: `sequence` is
`parseInt(line.id, 10)`, `duration` is `endTimeSeconds - startTimeSeconds`
with only the `NaN` case replaced by `0`, and the text is tag-stripped and
trimmed. -/
def parseSrtLine (line : RawSrtLine) : SrtLine :=
  let duration := jsSub line.endTimeSeconds line.startTimeSeconds
  { sequence := jsParseInt line.id
    startTime := line.startTime
    endTime := line.endTime
    duration := duration.getD 0
    text := jsTrim (stripTags line.text) }

/-- The catch-branch of `parseSrt`: every newline-delimited segment becomes
a line with 1-based sequence, zero timestamps and zero duration. -/
def fallbackLines (start : Nat) : List String → List SrtLine
  | [] => []
  | t :: ts =>
      { sequence := some (Int.ofNat (start + 1))
        startTime := "00:00:00,000"
        endTime := "00:00:00,000"
        duration := 0
        text := t } :: fallbackLines (start + 1) ts

/-- `parseSrt` from `translation.worker.ts`.  The external
`srt-parser-2 fromSrt` call is modelled by its outcome: a record list on
success, an exception (`Except.error ()`) otherwise. -/
def parseSrt (fromSrtResult : Except Unit (List RawSrtLine)) (srtContent : String) :
    List SrtLine :=
  match fromSrtResult with
  | .ok srtArray => srtArray.map parseSrtLine
  | .error _ => fallbackLines 0 (jsSplitNL srtContent)

/-- One record handed to the external `srt-parser-2` `toSrt`. -/
structure OutSrtRecord where
  id : String
  startTime : String
  endTime : String
  text : String
deriving DecidableEq

/-- The record list `toSrtString` builds and passes to the library's
`toSrt` (which serialises these fields verbatim): the id is
`line.sequence.toString()`, timestamps are passed through, and the text is
the translation. -/
def toSrtRecords (lines : List TranslatedSrtLine) : List OutSrtRecord :=
  lines.map fun line =>
    { id := jsNumToString line.sequence
      startTime := line.startTime
      endTime := line.endTime
      text := line.translatedText }

/-- Pairing of a batch with its translated texts, as in
`batch.map((line, index) => ({ ...line, translatedText: texts[index] }))`. -/
def withTranslations : List SrtLine → List String → List TranslatedSrtLine
  | [], _ => []
  | _, [] => []
  | l :: ls, t :: ts => { toSrtLine := l, translatedText := t } :: withTranslations ls ts

/-! ### AI gateway error wrapping (`runJsonTool`, `runTextGen`) -/

/-- Faults the upstream provider stack can raise (timeouts, malformed
JSON from the model, quota, safety blocks, anything else). -/
inductive ProviderError where
  | timeout
  | malformedJson
  | quota
  | safetyBlock
  | other (msg : String)
deriving DecidableEq

/-- Errors as observed by callers of the gateway: either the uniform
internal wrapper thrown by a catch block, or a provider error that
escaped unwrapped. -/
inductive CallError where
  | aiCall (msg : String)
  | upstream (e : ProviderError)
deriving DecidableEq

/-- `runJsonTool`: the `generateContent` call plus `JSON.parse` is modelled
by its combined outcome; the surrounding try/catch turns any fault into the
fixed internal error message. -/
def runJsonTool {α : Type} (upstreamResult : Except ProviderError α) : Except CallError α :=
  match upstreamResult with
  | .ok v => .ok v
  | .error _ => .error (.aiCall "An internal AI error occurred while processing data.")

/-- `runTextGen`: same wrapping with the translation-specific message. -/
def runTextGen (upstreamResult : Except ProviderError String) : Except CallError String :=
  match upstreamResult with
  | .ok s => .ok s
  | .error _ => .error (.aiCall "An internal AI error occurred during translation.")

/-! ### Context memory store (`indexContent`, `queryContext`, `cleanupIndex`) -/

/-- The `metadata: { jobId, text }` attached to each upserted vector. -/
structure VectorMetadata where
  jobId : String
  text : String
deriving DecidableEq

/-- One vector record in the Pinecone index. -/
structure VectorRecord where
  id : String
  values : List Int
  metadata : VectorMetadata
deriving DecidableEq

/-- Upsert of one vector: replace the record with the same id, else append. -/
def upsertOne (store : List VectorRecord) (v : VectorRecord) : List VectorRecord :=
  if store.any (fun r => r.id == v.id) then
    store.map (fun r => if r.id == v.id then v else r)
  else store ++ [v]

/-- Upsert of one chunk of vectors. -/
def upsertChunk (store : List VectorRecord) (vs : List VectorRecord) : List VectorRecord :=
  vs.foldl upsertOne store

/-- Fixed-size chunking, as in `for (i = 0; i < n; i += size) slice(i, i + size)`
(used with sizes 100 and 15).  Structural recursion on a fuel argument;
the input length suffices as fuel for any positive chunk size. -/
def chunkListAux {α : Type} : Nat → Nat → List α → List (List α)
  | _, _, [] => []
  | 0, _, l => [l]
  | fuel + 1, size, l => l.take size :: chunkListAux fuel size (l.drop size)

def chunkList {α : Type} (size : Nat) (l : List α) : List (List α) :=
  chunkListAux l.length size l

/-- The vector list built in `indexContent`: id `` `${jobId}-${line.sequence}` ``,
the i-th embedding's values, and `{ jobId, text }` metadata. -/
def mkVectors (jobId : String) : List SrtLine → List (List Int) → List VectorRecord
  | [], _ => []
  | l :: ls, es =>
      { id := jobId ++ "-" ++ jsNumToString l.sequence
        values := es.headD []
        metadata := { jobId := jobId, text := l.text } } :: mkVectors jobId ls es.tail

/-- The upsert loop of `indexContent` (chunks of at most 100 vectors). -/
def indexVectors (jobId : String) (lines : List SrtLine) (embeddings : List (List Int))
    (store : List VectorRecord) : List VectorRecord :=
  (chunkList 100 (mkVectors jobId lines embeddings)).foldl upsertChunk store

/-- `indexContent`: embeds all line texts and upserts the vectors.  It has
no try/catch, so a fault from `batchEmbedContents` propagates to the
caller in its provider-specific shape (the upsert calls, also unwrapped,
are modelled as pure state updates). -/
def indexContent (jobId : String) (lines : List SrtLine)
    (embedResult : Except ProviderError (List (List Int)))
    (store : List VectorRecord) : Except CallError (List VectorRecord) :=
  match embedResult with
  | .ok embeddings => .ok (indexVectors jobId lines embeddings store)
  | .error e => .error (.upstream e)

/-- The sentinel returned when the context query matches nothing. -/
def noContextSentinel : String := "No relevant context found."

/-- The Pinecone query issued by `queryContext`: the index returns at most
`topK` matches, drawn only from records whose metadata satisfies the
`{ jobId }` filter (nearest-neighbour ranking is abstracted as list
order). -/
def queryContextMatches (store : List VectorRecord) (jobId : String) (topK : Nat) :
    List VectorRecord :=
  (store.filter (fun r => r.metadata.jobId == jobId)).take topK

/-- `queryContext`: embed the text (oracle `embed`), query the index with
the mandatory `{ jobId }` filter, and join the matched texts; an empty
join (`||`-falsy) yields the sentinel. -/
def queryContext (store : List VectorRecord) (jobId : String) (text : String)
    (embed : String → List Int) (topK : Nat := 5) : String :=
  let _queryVector := embed text
  let results := queryContextMatches store jobId topK
  let joined := joinNL (results.map (fun m => m.metadata.text))
  if joined = "" then noContextSentinel else joined

/-- `cleanupIndex`: a stub that only logs — it performs no deletion and
returns the store unchanged. -/
def cleanupIndex (store : List VectorRecord) (jobId : String) : List VectorRecord :=
  let _logged := "Cleanup for job " ++ jobId ++ " would be performed here."
  store

/-! ### JSON.stringify for the objects embedded into prompts -/

/-- Minimal JSON string escaping (quotes and backslashes). -/
def jsonEscape (s : String) : String :=
  String.join (s.toList.map fun c =>
    if c = '"' then "\\\"" else if c = '\\' then "\\\\" else String.singleton c)

def jsonStr (s : String) : String := "\"" ++ jsonEscape s ++ "\""

def jsonArr (items : List String) : String :=
  "[" ++ String.intercalate "," items ++ "]"

def jsonOfKeyword (k : Keyword) : String :=
  "\x7b" ++ jsonStr "term" ++ ":" ++ jsonStr k.term ++ ","
    ++ jsonStr "definition" ++ ":" ++ jsonStr k.definition ++ "\x7d"

def jsonOfGroundedKeyword (k : GroundedKeyword) : String :=
  "\x7b" ++ jsonStr "term" ++ ":" ++ jsonStr k.term ++ ","
    ++ jsonStr "definition" ++ ":" ++ jsonStr k.definition ++ ","
    ++ jsonStr "translations" ++ ":" ++ jsonArr (k.translations.map jsonStr) ++ "\x7d"

def jsonOfUserGlossaryItem (u : UserGlossaryItem) : String :=
  "\x7b" ++ jsonStr "term" ++ ":" ++ jsonStr u.term ++ ","
    ++ jsonStr "translation" ++ ":" ++ jsonStr u.translation ++ "\x7d"

/-! ### Prompt builders -/

def getPhase1A_Prompt (subtitle : String) : String :=
  "Analyze the subtitle text. Extract technical terms, named entities, and idioms. For each, find a concise definition. Respond with a single JSON object: `\x7b \"keywords\": [\x7b \"term\": string, \"definition\": string \x7d] \x7d`. If none, return empty array. Text: \"\"\"" ++ subtitle ++ "\"\"\""

def getPhase1B_Prompt (keywords : List Keyword) : String :=
  "For each English term, find 3 common Persian translations. Respond with a single JSON object: `\x7b \"grounded_keywords\": [\x7b \"term\": string, \"translations\": [string] \x7d] \x7d`. Terms: "
    ++ jsonArr (keywords.map jsonOfKeyword)

def getPhase1C_Prompt (subtitle : String) (tone : String)
    (groundedKeywords : List GroundedKeyword) (userGlossary : List UserGlossaryItem) :
    String :=
  "Generate a \"Translation Blueprint\" JSON. Analyze the script for summary, keyPoints, characterProfiles, and culturalNuances.\n"
    ++ "    **Glossary Rules (CRITICAL):**\n"
    ++ "    1.  The User-Provided Glossary is SACROSANCT. For every term in it, its translation MUST be used as the \x27proposedTranslation\x27.\n"
    ++ "    2.  For the remaining AI-Generated Keywords, select the best \x27proposedTranslation\x27 from its \x27translations\x27 array based on the \x27" ++ tone ++ "\x27 tone and script context.\n"
    ++ "    3.  Justify each choice with evidence from the script.\n"
    ++ "    **User-Provided Glossary:** " ++ jsonArr (userGlossary.map jsonOfUserGlossaryItem) ++ "\n"
    ++ "    **AI-Generated Keywords:** " ++ jsonArr (groundedKeywords.map jsonOfGroundedKeyword) ++ "\n"
    ++ "    **Script:** \"\"\"" ++ subtitle ++ "\"\"\""

/-- The JS-object view of an `SrtLine` value: exactly the five properties
the `SrtLine` interface declares — there is no `id` property. -/
def srtLineFields (l : SrtLine) : List (String × JsValue) :=
  [("sequence", match l.sequence with | some n => .num n | none => .nanV),
   ("startTime", .str l.startTime),
   ("endTime", .str l.endTime),
   ("duration", .num l.duration),
   ("text", .str l.text)]

/-- One input line of the triage prompt: `` `${l.id} | ${l.text}` `` where
`l` is an `SrtLine`. -/
def triageLineEntry (l : SrtLine) : String :=
  jsValueToString (jsGet (srtLineFields l) "id") ++ " | " ++ l.text

def getTriageAgentPrompt (batch : List SrtLine) : String :=
  "You are a linguistic triage agent. Classify each subtitle line\x27s complexity. Respond with a JSON array ONLY: `\x7b \"classifications\": [\x7b \"id\": number, \"model\": \"flash\" | \"pro\" \x7d] \x7d`.\n"
    ++ "    - Use \"pro\" for lines with idioms, complex grammar, slang, or deep emotional/cultural nuance.\n"
    ++ "    - Use \"flash\" for simple, direct, or declarative sentences.\n"
    ++ "    Input for Classification:\n"
    ++ "    ---\n"
    ++ "    " ++ joinNL (batch.map triageLineEntry) ++ "\n"
    ++ "    ---\n"
    ++ "    Produce the JSON output."

def getStep2_Prompt (line : SrtLine) (context : String) (brief : String) (tone : String) :
    String :=
  "You are a Master Transcreator. Transcreate ONLY the \"Current Line\" into fluent Persian, adhering to the \"Project Brief\" and \x27" ++ tone ++ "\x27 tone. Use the \"Long-Term Memory\" for context.\n"
    ++ "Project Brief:\n---\n" ++ brief ++ "\n---\n"
    ++ "Long-Term Memory (Context from script):\n---\n" ++ context ++ "\n---\n"
    ++ "Current Line: \"" ++ line.text ++ "\"\n---\n"
    ++ "Provide ONLY the single line of Persian transcreation."

/-! ### Translation pipeline orchestrator -/

def flashModel : String := "gemini-2.5-flash"
def proModel : String := "gemini-2.5-pro"
def linesPerBatch : Nat := 15

/-- The parsed JSON returned by the Phase 1c call; `glossary` is optional
because the model may omit the field (the code checks `!blueprint.glossary`). -/
structure BlueprintResponse where
  summary : String
  keyPoints : List String
  characterProfiles : List CharacterProfile
  culturalNuances : List String
  glossary : Option (List GlossaryTerm)
deriving DecidableEq

/-- Oracle for the three `runJsonTool` calls of `generateBlueprint`, as a
function of the prompt each call sends (success path; a gateway fault
aborts the attempt, see `runJsonTool`).  The `Option` on 1a/1b models the
`.keywords || []` / `.grounded_keywords || []` defaulting. -/
structure BlueprintOracle where
  phase1A : String → Option (List Keyword)
  phase1B : String → Option (List GroundedKeyword)
  phase1C : String → BlueprintResponse

/-- `generateBlueprint`: three sequential model calls; the returned
blueprint is exactly the Phase 1c response, rejected only when its
`glossary` field is missing.  (The `updateStage` side effects carry no
data and are elided.) -/
def generateBlueprint (O : BlueprintOracle) (fromSrtResult : Except Unit (List RawSrtLine))
    (subtitleContent : String) (tone : String) (userGlossary : List UserGlossaryItem) :
    Except String TranslationBlueprint :=
  let subtitleText := joinNL ((parseSrt fromSrtResult subtitleContent).map (fun l => l.text))
  let keywords := (O.phase1A (getPhase1A_Prompt subtitleText)).getD []
  let groundedKeywords := (O.phase1B (getPhase1B_Prompt keywords)).getD []
  let blueprint := O.phase1C (getPhase1C_Prompt subtitleText tone groundedKeywords userGlossary)
  match blueprint.glossary with
  | none => .error "AI failed to generate a valid blueprint."
  | some g =>
      .ok { summary := blueprint.summary
            keyPoints := blueprint.keyPoints
            characterProfiles := blueprint.characterProfiles
            culturalNuances := blueprint.culturalNuances
            glossary := g }

/-- The per-line model choice in `executeTranslation`:
`triageResult.find(t => t.id === line.sequence)?.model || 'flash'`.
Strict JS equality with a possibly-`NaN` sequence (`NaN === x` is false),
and `||` turns both a missing entry and a falsy (empty) model string into
`'flash'`. -/
def modelChoiceFor (triageResult : List TriageClassification) (seq : Option Int) : String :=
  match triageResult.find? (fun t => some t.id == seq) with
  | some t => if t.model = "" then "flash" else t.model
  | none => "flash"

/-- Oracles for the success path of `executeTranslation`: the SRT library
outcome, the two embedding entry points, the triage model call (the parsed
`classifications` field, `none` when absent), and the translation calls. -/
structure ExecOracles where
  fromSrtResult : Except Unit (List RawSrtLine)
  embedBatch : List String → List (List Int)
  embedOne : String → List Int
  triage : String → Option (List TriageClassification)
  textGen : String → String → String

/-- `triageBatch`: one `runJsonTool` call on the triage prompt;
`result.classifications || []`. -/
def triageBatch (O : ExecOracles) (batch : List SrtLine) : List TriageClassification :=
  (O.triage (getTriageAgentPrompt batch)).getD []

/-- `executeTranslation` (success path): parse, index, translate batch by
batch with per-line triage and context queries, then run the cleanup stub;
returns the records handed to the SRT renderer together with the final
state of the vector index. -/
def executeTranslation (O : ExecOracles) (jobId : String) (subtitleContent : String)
    (tone : String) (translationBrief : String) (store0 : List VectorRecord) :
    List OutSrtRecord × List VectorRecord :=
  let srtLines := parseSrt O.fromSrtResult subtitleContent
  let store1 := indexVectors jobId srtLines (O.embedBatch (srtLines.map (fun l => l.text))) store0
  let batches := chunkList linesPerBatch srtLines
  let allTranslatedLines := batches.flatMap (fun batch =>
    let triageResult := triageBatch O batch
    let translatedTextLines := batch.map (fun line =>
      let modelChoice := modelChoiceFor triageResult line.sequence
      let modelToUse := if modelChoice = "pro" then proModel else flashModel
      let longTermContext := queryContext store1 jobId line.text O.embedOne 5
      O.textGen modelToUse (getStep2_Prompt line longTermContext translationBrief tone))
    withTranslations batch translatedTextLines)
  let store2 := cleanupIndex store1 jobId
  (toSrtRecords allTranslatedLines, store2)

/-! ### Job queue and worker (`jobs.ts`) -/

/-- The events published on the `jobEvents` bus, keyed by job id. -/
inductive ProgressEvent where
  | progress (stage : String)
  | blueprintReady
  | completed (result : String)
  | failed (error : String)
deriving DecidableEq

def ProgressEvent.isTerminal : ProgressEvent → Bool
  | .completed _ => true
  | .failed _ => true
  | _ => false

def terminalEvents (evs : List ProgressEvent) : List ProgressEvent :=
  evs.filter ProgressEvent.isTerminal

/-- Outcome of one worker attempt's orchestration: the blueprint phase or
the translation phase raises, or the run returns a final translation. -/
inductive AttemptOutcome where
  | blueprintFail (error : String)
  | translationFail (error : String)
  | success (result : String)
deriving DecidableEq

/-- The worker callback of `startWorker` for one attempt: the phase-entry
`updateStage` events (intra-phase stage labels elided), `blueprint_ready`
after the blueprint, then either `completed` on return or — in the catch
block — `failed`, after which the error is rethrown to the queue.  The
`failed` emission is unconditional in the catch block: it does not consult
the remaining attempt budget. -/
def workerAttempt : AttemptOutcome → List ProgressEvent × Except String String
  | .blueprintFail e =>
      ([.progress "Generating blueprint...", .failed e], .error e)
  | .translationFail e =>
      ([.progress "Generating blueprint...", .blueprintReady,
        .progress "Executing translation...", .failed e], .error e)
  | .success r =>
      ([.progress "Generating blueprint...", .blueprintReady,
        .progress "Executing translation...", .completed r], .ok r)

/-- `createTranslationJob` enqueues with `attempts: 2` (exponential
backoff, base delay 10s — timing is not modelled). -/
def createTranslationJobAttempts : Nat := 2

/-- Queue-level retry semantics of the external BullMQ library for a job
with the given attempt budget (spec §4.5): a throwing attempt is re-run
until the budget is exhausted; the bus receives the concatenation of the
events each executed attempt published. -/
def runJobAttempts : List AttemptOutcome → Nat → List ProgressEvent
  | _, 0 => []
  | [], _ => []
  | o :: rest, n + 1 =>
      let (evs, res) := workerAttempt o
      match res with
      | .ok _ => evs
      | .error _ => evs ++ runJobAttempts rest n

/-! ### Helper lemmas -/

theorem takeWhile_eq_self {α : Type} (p : α → Bool) :
    ∀ l : List α, (∀ c ∈ l, p c = true) → l.takeWhile p = l := by
  intro l h
  induction l with
  | nil => rfl
  | cons a t ih =>
    rw [List.takeWhile_cons, h a (by simp)]
    simp only [ite_true]
    rw [ih (fun c hc => h c (by simp [hc]))]

theorem digitChar_facts (d : Nat) (h : d < 10) :
    (digitChar d).isDigit = true ∧ isJsSpace (digitChar d) = false
    ∧ ¬(digitChar d = '-') ∧ ¬(digitChar d = '+') ∧ (digitChar d).toNat = 48 + d := by
  interval_cases d <;> exact ⟨by decide, by decide, by decide, by decide, by decide⟩

theorem natReprDigits_all_lt (fuel : Nat) : ∀ n, ∀ d ∈ natReprDigits fuel n, d < 10 := by
  induction fuel with
  | zero => intro n d hd; simp [natReprDigits] at hd
  | succ m ih =>
    intro n d hd
    by_cases h0 : n = 0
    · simp [natReprDigits, h0] at hd
    · simp only [natReprDigits, if_neg h0, List.mem_append, List.mem_singleton] at hd
      rcases hd with hd | rfl
      · exact ih _ d hd
      · exact Nat.mod_lt _ (by norm_num)

theorem natReprDigits_ne_nil (fuel n : Nat) (hf : fuel ≠ 0) (hn : n ≠ 0) :
    natReprDigits fuel n ≠ [] := by
  cases fuel with
  | zero => exact absurd rfl hf
  | succ m => simp [natReprDigits, hn]

theorem digitsFold_natReprDigits (fuel : Nat) :
    ∀ n a : Nat, n ≤ fuel →
      List.foldl (fun acc c => 10 * acc + (c.toNat - 48)) a
          ((natReprDigits fuel n).map digitChar)
        = a * 10 ^ (natReprDigits fuel n).length + n := by
  induction fuel with
  | zero =>
    intro n a hn
    interval_cases n
    simp [natReprDigits]
  | succ fuel ih =>
    intro n a hn
    by_cases h0 : n = 0
    · simp [natReprDigits, h0]
    · have hlt : n / 10 < n := Nat.div_lt_self (Nat.pos_of_ne_zero h0) (by norm_num)
      have hdiv : n / 10 ≤ fuel := by omega
      rw [natReprDigits, if_neg h0, List.map_append, List.foldl_append, ih (n / 10) a hdiv]
      simp only [List.map_cons, List.map_nil, List.foldl_cons, List.foldl_nil,
        List.length_append, List.length_cons, List.length_nil]
      have hmod : (digitChar (n % 10)).toNat = 48 + n % 10 :=
        (digitChar_facts _ (Nat.mod_lt _ (by norm_num))).2.2.2.2
      rw [hmod]
      have h48 : 48 + n % 10 - 48 = n % 10 := by omega
      rw [h48]
      calc 10 * (a * 10 ^ (natReprDigits fuel (n / 10)).length + n / 10) + n % 10
          = a * (10 ^ (natReprDigits fuel (n / 10)).length * 10)
              + (10 * (n / 10) + n % 10) := by ring
        _ = a * 10 ^ ((natReprDigits fuel (n / 10)).length + 1) + n := by
              rw [Nat.div_add_mod, pow_succ]

theorem jsParseInt_natRepr (n : Nat) : jsParseInt (natRepr n) = some (n : Int) := by
  by_cases h0 : n = 0
  · subst h0; decide
  · have hall : ∀ d ∈ natReprDigits n n, d < 10 := natReprDigits_all_lt n n
    cases hds : natReprDigits n n with
    | nil => exact absurd hds (natReprDigits_ne_nil n n h0 h0)
    | cons d tl =>
      have hd10 : d < 10 := hall d (by rw [hds]; exact List.mem_cons_self _ _)
      have hcs : (natRepr n).toList = digitChar d :: tl.map digitChar := by
        simp [natRepr, h0, hds]
      have halldig : ∀ c ∈ digitChar d :: tl.map digitChar, c.isDigit = true := by
        intro c hc
        rcases List.mem_cons.mp hc with rfl | hc
        · exact (digitChar_facts d hd10).1
        · obtain ⟨x, hx, rfl⟩ := List.mem_map.mp hc
          exact (digitChar_facts x (hall x (by rw [hds]; exact List.mem_cons_of_mem _ hx))).1
      simp only [jsParseInt, hcs]
      rw [List.dropWhile_cons, (digitChar_facts d hd10).2.1]
      simp only [Bool.false_eq_true, if_false, if_neg (digitChar_facts d hd10).2.2.1,
        if_neg (digitChar_facts d hd10).2.2.2.1]
      rw [takeWhile_eq_self _ _ halldig]
      simp only [List.cons_ne_self, if_neg (List.cons_ne_nil _ _)]
      have hfold := digitsFold_natReprDigits n n 0 (le_refl n)
      rw [hds] at hfold
      simp only [List.map_cons] at hfold
      have : digitsToNat (digitChar d :: tl.map digitChar) = n := by
        simpa [digitsToNat] using hfold
      rw [this]

theorem fallbackLines_length (start : Nat) (ts : List String) :
    (fallbackLines start ts).length = ts.length := by
  induction ts generalizing start with
  | nil => rfl
  | cons t ts ih => simp [fallbackLines, ih]

theorem fallbackLines_getD (ts : List String) :
    ∀ (start i : Nat), i < ts.length → ∀ d : SrtLine,
    (fallbackLines start ts).getD i d =
      { sequence := some (Int.ofNat (start + i + 1)), startTime := "00:00:00,000",
        endTime := "00:00:00,000", duration := 0, text := ts.getD i "" } := by
  induction ts with
  | nil => intro start i h; cases h
  | cons t ts ih =>
    intro start i h d
    cases i with
    | zero => simp [fallbackLines]
    | succ j =>
      have hj : j < ts.length := by simpa using h
      simp only [fallbackLines, List.getD_cons_succ]
      rw [ih (start + 1) j hj d]
      have : start + 1 + j + 1 = start + (j + 1) + 1 := by omega
      rw [this]

/-! ### Claim C1 -/

/-- C1: the claim says exactly one terminal event (`completed` or `failed`)
is published per job across retried attempts.  The worker's catch block
publishes `failed` unconditionally before rethrowing, so a job created
with `attempts: 2` whose first attempt raises and whose second attempt
succeeds publishes a `failed` event for attempt 1 and a `completed` event
for attempt 2 — two terminal events, with `failed` preceding the
completion. -/
theorem c1_retried_job_publishes_failed_then_completed :
    terminalEvents
        (runJobAttempts [AttemptOutcome.blueprintFail "boom", AttemptOutcome.success "done"]
          createTranslationJobAttempts)
      = [ProgressEvent.failed "boom", ProgressEvent.completed "done"] := by decide

/-! ### Claim C2 -/

/-- Phase 1c response used to exhibit the missing user-glossary
enforcement: the model proposes `OTHER` for the term `Neo`. -/
def c2Response : BlueprintResponse :=
  { summary := "s", keyPoints := [], characterProfiles := [], culturalNuances := [],
    glossary := some [⟨"Neo", "", "OTHER", "", "", []⟩] }

def c2Oracle : BlueprintOracle :=
  { phase1A := fun _ => none, phase1B := fun _ => none, phase1C := fun _ => c2Response }

/-- C2 counterexample: with a user glossary mapping `Neo` to `NEO-FA`, a
blueprint-assembly response proposing `OTHER` for `Neo` is returned by
`generateBlueprint` verbatim: the glossary entry for `Neo` carries
`OTHER`, not the user's `NEO-FA`. -/
theorem c2_user_glossary_not_enforced :
    (generateBlueprint c2Oracle (Except.error ()) "" "Casual" [⟨"Neo", "NEO-FA"⟩]).map
        (fun b => b.glossary.map (fun g => (g.term, g.proposedTranslation)))
      = Except.ok [("Neo", "OTHER")]
    ∧ ("OTHER" : String) ≠ "NEO-FA" := by
  exact ⟨rfl, by decide⟩

/-- C2 amended: `generateBlueprint` returns the Phase 1c model response
verbatim whenever its `glossary` field is present (and fails otherwise);
the user glossary reaches only the prompt text, so for a fixed model
response the output is independent of the user glossary and its entry for
a term is whatever the model proposed. -/
theorem c2_blueprint_is_model_response_verbatim (resp : BlueprintResponse)
    (pA : String → Option (List Keyword)) (pB : String → Option (List GroundedKeyword))
    (fr : Except Unit (List RawSrtLine)) (content tone : String)
    (ug ug2 : List UserGlossaryItem) (g : List GlossaryTerm)
    (h : resp.glossary = some g) :
    generateBlueprint ⟨pA, pB, fun _ => resp⟩ fr content tone ug =
      Except.ok ⟨resp.summary, resp.keyPoints, resp.characterProfiles, resp.culturalNuances, g⟩
    ∧ generateBlueprint ⟨pA, pB, fun _ => resp⟩ fr content tone ug =
      generateBlueprint ⟨pA, pB, fun _ => resp⟩ fr content tone ug2 := by
  constructor
  · simp [generateBlueprint, h]
  · simp [generateBlueprint, h]

theorem c2_blueprint_is_model_response_verbatim_witness :
    generateBlueprint c2Oracle (Except.error ()) "" "Casual" [⟨"Neo", "NEO-FA"⟩] =
      Except.ok ⟨"s", [], [], [], [⟨"Neo", "", "OTHER", "", "", []⟩]⟩ :=
  (c2_blueprint_is_model_response_verbatim c2Response (fun _ => none) (fun _ => none)
    (Except.error ()) "" "Casual" [⟨"Neo", "NEO-FA"⟩] [] _ rfl).1

/-! ### Claim C3 -/

/-- C3 counterexample: a structurally parsed record whose end is one
second before its start yields a line with duration `-1 < 0`: the
negative case is not clamped, only `NaN` is. -/
theorem c3_negative_duration_not_clamped :
    (parseSrt (Except.ok [⟨"1", "00:00:02,000", "00:00:01,000", some 2, some 1, "hi"⟩]) "").map
        (fun l => l.duration) = [-1]
    ∧ (-1 : Int) < 0 := by decide

/-- C3 amended: `duration` is `end - start`, replaced by `0` only when
the difference is `NaN` (either seconds value missing); when both seconds
values are present the exact difference is kept — including negative
differences, which are not clamped. -/
theorem c3_duration_clamps_nan_only (raw : RawSrtLine) :
    ((raw.startTimeSeconds = none ∨ raw.endTimeSeconds = none) →
      (parseSrtLine raw).duration = 0)
    ∧ (∀ e s : Int, raw.endTimeSeconds = some e → raw.startTimeSeconds = some s →
        (parseSrtLine raw).duration = e - s) := by
  constructor
  · rintro (h | h)
    · cases he : raw.endTimeSeconds <;> simp [parseSrtLine, jsSub, h, he]
    · cases hs : raw.startTimeSeconds <;> simp [parseSrtLine, jsSub, h, hs]
  · intro e s he hs
    simp [parseSrtLine, jsSub, he, hs]

theorem c3_duration_clamps_nan_only_witness :
    (parseSrtLine ⟨"1", "00:00:00,000", "00:00:01,000", none, some 1, "t"⟩).duration = 0
    ∧ (parseSrtLine ⟨"2", "00:00:02,000", "00:00:01,000", some 2, some 1, "t"⟩).duration = 1 - 2 :=
  ⟨(c3_duration_clamps_nan_only ⟨"1", "00:00:00,000", "00:00:01,000", none, some 1, "t"⟩).1
      (Or.inl rfl),
   (c3_duration_clamps_nan_only ⟨"2", "00:00:02,000", "00:00:01,000", some 2, some 1, "t"⟩).2
      1 2 rfl rfl⟩

/-! ### Claim C4 -/

/-- C4 counterexample: `indexContent` (the batch-embedding operation) has
no try/catch; an upstream timeout reaches the caller in its
provider-specific shape, not as the uniform internal AI-call error. -/
theorem c4_embedding_fault_not_wrapped :
    indexContent "job1" [] (Except.error ProviderError.timeout) [] =
      Except.error (CallError.upstream ProviderError.timeout)
    ∧ CallError.upstream ProviderError.timeout ≠
      CallError.aiCall "An internal AI error occurred while processing data." := by
  exact ⟨rfl, by decide⟩

/-- C4 amended: structured-JSON generation and free-text generation wrap
every upstream fault into a generic internal AI-call error (one fixed
message per operation), but batch embedding does not: `indexContent`
propagates the provider error unchanged. -/
theorem c4_wrapping_per_operation (α : Type) (e : ProviderError) (jobId : String)
    (lines : List SrtLine) (store : List VectorRecord) :
    runJsonTool (α := α) (Except.error e) =
      Except.error (CallError.aiCall "An internal AI error occurred while processing data.")
    ∧ runTextGen (Except.error e) =
      Except.error (CallError.aiCall "An internal AI error occurred during translation.")
    ∧ indexContent jobId lines (Except.error e) store = Except.error (CallError.upstream e) :=
  ⟨rfl, rfl, rfl⟩

/-! ### Claim C5 -/

/-- C5: if the triage classification carries no entry whose id strictly
equals the line's sequence, `modelChoiceFor` yields `'flash'` and the
model used is the fast-tier model. -/
theorem c5_absent_from_triage_defaults_to_flash (triageResult : List TriageClassification)
    (seq : Option Int) (h : ∀ t ∈ triageResult, some t.id ≠ seq) :
    modelChoiceFor triageResult seq = "flash"
    ∧ (if modelChoiceFor triageResult seq = "pro" then proModel else flashModel) = flashModel := by
  have hf : triageResult.find? (fun t => some t.id == seq) = none := by
    apply List.find?_eq_none.mpr
    intro t ht
    simpa using h t ht
  constructor
  · simp [modelChoiceFor, hf]
  · simp [modelChoiceFor, hf]

/-- A triage result for a 15-line batch that omits line 7. -/
def c5Triage : List TriageClassification :=
  [⟨1, "flash"⟩, ⟨2, "pro"⟩, ⟨3, "flash"⟩, ⟨4, "flash"⟩, ⟨5, "pro"⟩, ⟨6, "flash"⟩,
   ⟨8, "pro"⟩, ⟨9, "flash"⟩, ⟨10, "flash"⟩, ⟨11, "pro"⟩, ⟨12, "flash"⟩, ⟨13, "flash"⟩,
   ⟨14, "pro"⟩, ⟨15, "flash"⟩]

theorem c5_absent_from_triage_defaults_to_flash_witness :
    modelChoiceFor c5Triage (some 7) = "flash" :=
  (c5_absent_from_triage_defaults_to_flash c5Triage (some 7) (by decide)).1

/-! ### Claim C6 -/

/-- C6: the triage prompt labels each batch line with `l.id`, a property
the `SrtLine` interface does not declare, so the label is the JS
`undefined` value for every line — never the line's `sequence` number —
and each prompt entry reads `undefined | <text>`. -/
theorem c6_triage_prompt_reads_undefined_id (l : SrtLine) :
    jsGet (srtLineFields l) "id" = JsValue.undefV
    ∧ (∀ n : Int, jsGet (srtLineFields l) "id" ≠ JsValue.num n)
    ∧ triageLineEntry l = "undefined | " ++ l.text := by
  refine ⟨rfl, ?_, rfl⟩
  intro n hc
  cases hc

/-! ### Claim C7 -/

/-- C7: when structural parsing fails, `parseSrt` returns (it cannot
raise: the catch branch is total) one line per newline-delimited segment,
with 1-based sequence, zero timestamps and duration 0, and the segment as
text. -/
theorem c7_parse_fallback_shape (content : String) (i : Nat)
    (h : i < (jsSplitNL content).length) (d : SrtLine) :
    (parseSrt (Except.error ()) content).length = (jsSplitNL content).length
    ∧ (parseSrt (Except.error ()) content).getD i d =
      { sequence := some (Int.ofNat (i + 1)), startTime := "00:00:00,000",
        endTime := "00:00:00,000", duration := 0, text := (jsSplitNL content).getD i "" } := by
  constructor
  · simpa [parseSrt] using fallbackLines_length 0 (jsSplitNL content)
  · simpa [parseSrt] using fallbackLines_getD (jsSplitNL content) 0 i h d

theorem c7_parse_fallback_shape_witness :
    (parseSrt (Except.error ()) "a\nb").length = (jsSplitNL "a\nb").length
    ∧ (parseSrt (Except.error ()) "a\nb").getD 0 ⟨none, "", "", 0, ""⟩ =
      { sequence := some (Int.ofNat (0 + 1)), startTime := "00:00:00,000",
        endTime := "00:00:00,000", duration := 0, text := (jsSplitNL "a\nb").getD 0 "" } :=
  c7_parse_fallback_shape "a\nb" 0 (by decide) ⟨none, "", "", 0, ""⟩

/-! ### Claim C8 -/

/-- C8: for input that parses structurally (library records whose block
ids are canonical decimal numbers, as SRT block counters are), rendering
the parsed lines with translated texts substituted hands the SRT
serializer records with exactly the original ids, start and end
timestamps, and block count. -/
theorem c8_structural_round_trip :
    ∀ (rawLines : List RawSrtLine) (texts : List String) (content : String),
    (∀ raw ∈ rawLines, ∃ n : Nat, raw.id = natRepr n) →
    texts.length = rawLines.length →
    (toSrtRecords (withTranslations (parseSrt (Except.ok rawLines) content) texts)).length
        = rawLines.length
    ∧ (toSrtRecords (withTranslations (parseSrt (Except.ok rawLines) content) texts)).map
        (fun r => r.id) = rawLines.map (fun r => r.id)
    ∧ (toSrtRecords (withTranslations (parseSrt (Except.ok rawLines) content) texts)).map
        (fun r => r.startTime) = rawLines.map (fun r => r.startTime)
    ∧ (toSrtRecords (withTranslations (parseSrt (Except.ok rawLines) content) texts)).map
        (fun r => r.endTime) = rawLines.map (fun r => r.endTime) := by
  intro rawLines
  induction rawLines with
  | nil =>
    intro texts content _ hlen
    cases texts with
    | nil => exact ⟨rfl, rfl, rfl, rfl⟩
    | cons t ts => simp at hlen
  | cons raw rest ih =>
    intro texts content hids hlen
    cases texts with
    | nil => simp at hlen
    | cons t ts =>
      obtain ⟨n, hn⟩ := hids raw (List.mem_cons_self _ _)
      obtain ⟨h1, h2, h3, h4⟩ :=
        ih ts content (fun r hr => hids r (List.mem_cons_of_mem _ hr)) (by simpa using hlen)
      have hid : jsNumToString (parseSrtLine raw).sequence = raw.id := by
        show jsNumToString (jsParseInt raw.id) = raw.id
        rw [hn, jsParseInt_natRepr]
        rfl
      simp only [parseSrt] at h1 h2 h3 h4 ⊢
      simp only [List.map_cons, withTranslations, toSrtRecords, List.length_cons] at *
      exact ⟨by omega, by simp [hid, h2], by simp [h3, parseSrtLine], by simp [h4, parseSrtLine]⟩

def c8Raws : List RawSrtLine :=
  [⟨"1", "00:00:01,000", "00:00:02,000", some 1, some 2, "hello"⟩,
   ⟨"2", "00:00:03,000", "00:00:04,000", some 3, some 4, "world"⟩]

theorem c8_structural_round_trip_witness :
    (toSrtRecords (withTranslations (parseSrt (Except.ok c8Raws) "src") ["a", "b"])).map
        (fun r => r.id) = c8Raws.map (fun r => r.id) :=
  (c8_structural_round_trip c8Raws ["a", "b"] "src"
    (by
      intro raw hr
      simp only [c8Raws, List.mem_cons, List.not_mem_nil, or_false] at hr
      rcases hr with rfl | rfl
      · exact ⟨1, by decide⟩
      · exact ⟨2, by decide⟩)
    (by decide)).2.1

/-! ### Claim C9 -/

/-- C9: the query `queryContext` issues carries the mandatory `{ jobId }`
filter, so every match it can use belongs to the querying job's
namespace; and when the namespace holds nothing — in particular for a
job id that was never indexed — the sentinel string is returned, not an
error. -/
theorem c9_query_scoped_and_sentinel (store : List VectorRecord) (jobId text : String)
    (embed : String → List Int) (topK : Nat) :
    (∀ r ∈ queryContextMatches store jobId topK, r.metadata.jobId = jobId)
    ∧ ((∀ r ∈ store, r.metadata.jobId ≠ jobId) →
        queryContext store jobId text embed topK = noContextSentinel) := by
  constructor
  · intro r hr
    have hmem := List.mem_of_mem_take hr
    have := List.mem_filter.mp hmem
    simpa using this.2
  · intro h
    have hf : store.filter (fun r => r.metadata.jobId == jobId) = [] := by
      apply List.filter_eq_nil_iff.mpr
      intro r hr
      simpa using h r hr
    simp [queryContext, queryContextMatches, hf, joinNL]

def c9Store : List VectorRecord := [⟨"a-1", [1], ⟨"a", "hi"⟩⟩]

def c9Embed : String → List Int := fun _ => [1]

theorem c9_query_scoped_and_sentinel_witness :
    queryContext c9Store "b" "t" c9Embed 5 = noContextSentinel :=
  (c9_query_scoped_and_sentinel c9Store "b" "t" c9Embed 5).2 (by decide)

/-! ### Claim C10 -/

def c10Oracle : ExecOracles :=
  { fromSrtResult := Except.ok [⟨"1", "00:00:00,000", "00:00:01,000", some 0, some 1, "hello"⟩]
    embedBatch := fun _ => [[1]]
    embedOne := fun _ => [1]
    triage := fun _ => none
    textGen := fun _ _ => "T" }

/-- C10 counterexample: after a full `executeTranslation` run — cleanup
step included — the vector indexed under job `J`'s namespace is still in
the index: the cleanup step deletes nothing. -/
theorem c10_cleanup_deletes_nothing :
    ((executeTranslation c10Oracle "J" "x" "Casual" "brief" []).2).filter
        (fun r => r.metadata.jobId == "J") = [⟨"J-1", [1], ⟨"J", "hello"⟩⟩] := by decide

/-- C10 amended: the cleanup step invoked once per job after the last
batch is a no-op stub (it only logs): `executeTranslation`'s final index
state equals the state right after indexing, so no vectors of the job's
namespace are deleted; being a no-op, the step cannot fail and therefore
never fails the job. -/
theorem c10_cleanup_is_noop (O : ExecOracles) (jobId content tone brief : String)
    (store0 : List VectorRecord) :
    (executeTranslation O jobId content tone brief store0).2 =
      indexVectors jobId (parseSrt O.fromSrtResult content)
        (O.embedBatch ((parseSrt O.fromSrtResult content).map (fun l => l.text))) store0 := rfl

end PhantomSubtitle
